import Mathlib

/-!
Verification development for the Fira NadiaVM core
(`uvn_fira/core/lang.py` and `uvn_fira/core/vm.py`).

The Python source is shallowly embedded: each Lean definition mirrors one
Python function or method, named after it in its doc comment.  The host
runtime of the repository is Ren'Py's Python 2 (`core/template.py` drives the
VM through `renpy.*`), which matters once, for the `/` operator in `_div`.
-/

set_option autoImplicit false

namespace Fira

/-- Source `CSNadiaLanguageKeyword` from `lang.py`: the reserved words of NadiaVM,
in source declaration order. -/
inductive Keyword where
  | SET | BIND | CAST | COLLECT | EXIT | POP | PUSH | ALLOC
  | ADD | SUB | MULT | DIV | NEG | CONSTANT | ORIGIN | PLAYER | MOVE
  deriving DecidableEq

/-- Source `CSNadiaLanguageCommand` from `lang.py`: the keywords that are commands
(everything except `constant`, `origin`, `player`). -/
inductive Command where
  | SET | BIND | CAST | COLLECT | EXIT | POP | PUSH | ALLOC
  | ADD | SUB | MULT | DIV | NEG | MOVE
  deriving DecidableEq

/-- The string value of each `Keyword` member (the enum's `.value`). -/
def keywordValue : Keyword → String
  | .SET => "set" | .BIND => "bind" | .CAST => "cast" | .COLLECT => "collect"
  | .EXIT => "exit" | .POP => "pop" | .PUSH => "push" | .ALLOC => "alloc"
  | .ADD => "add" | .SUB => "sub" | .MULT => "mult" | .DIV => "div"
  | .NEG => "neg" | .CONSTANT => "constant" | .ORIGIN => "origin"
  | .PLAYER => "player" | .MOVE => "move"

/-- Source `CSNadiaLanguageParser.reserved()`: the `.value` strings of all keywords,
in member order. -/
def reservedStrings : List String :=
  ["set", "bind", "cast", "collect", "exit", "pop", "push", "alloc",
   "add", "sub", "mult", "div", "neg", "constant", "origin", "player", "move"]

/-- Source `CSNadiaLanguageKeyword(s)`: look a keyword up by its string value. -/
def keywordOfString (s : String) : Option Keyword :=
  match s with
  | "set" => some .SET | "bind" => some .BIND | "cast" => some .CAST
  | "collect" => some .COLLECT | "exit" => some .EXIT | "pop" => some .POP
  | "push" => some .PUSH | "alloc" => some .ALLOC | "add" => some .ADD
  | "sub" => some .SUB | "mult" => some .MULT | "div" => some .DIV
  | "neg" => some .NEG | "constant" => some .CONSTANT
  | "origin" => some .ORIGIN | "player" => some .PLAYER | "move" => some .MOVE
  | _ => Option.none

/-- Source `CSNadiaLanguageCommand(s)`: look a command up by its string value
(`ValueError`, i.e. `Option.none`, when `s` is not a command value). -/
def commandOfString (s : String) : Option Command :=
  match s with
  | "set" => some .SET | "bind" => some .BIND | "cast" => some .CAST
  | "collect" => some .COLLECT | "exit" => some .EXIT | "pop" => some .POP
  | "push" => some .PUSH | "alloc" => some .ALLOC | "add" => some .ADD
  | "sub" => some .SUB | "mult" => some .MULT | "div" => some .DIV
  | "neg" => some .NEG | "move" => some .MOVE
  | _ => Option.none

/-- Source `Command.value` for a command member. -/
def commandValue : Command → String
  | .SET => "set" | .BIND => "bind" | .CAST => "cast" | .COLLECT => "collect"
  | .EXIT => "exit" | .POP => "pop" | .PUSH => "push" | .ALLOC => "alloc"
  | .ADD => "add" | .SUB => "sub" | .MULT => "mult" | .DIV => "div"
  | .NEG => "neg" | .MOVE => "move"

/-- Source `CSNadiaLanguageParser._is_keyword`: membership in the reserved strings. -/
def isKeywordStr (s : String) : Bool := reservedStrings.contains s

/-- Source `CSNadiaLanguageTokenType` from `lang.py`. -/
inductive TokenType where
  | KEYWORD | COMMENT | STRING | NUMBER | IDENTIFIER | ANY | NONE
  deriving DecidableEq

/-- Source `CSNadiaLanguageToken`: a token type plus its raw contents. -/
structure Token where
  type : TokenType
  contents : String
  deriving DecidableEq

/-- Source `string.digits` membership for one character. -/
def isDigitCh (c : Char) : Bool := '0' ≤ c && c ≤ '9'

/-- Source `string.ascii_letters` membership for one character. -/
def isAsciiLetter (c : Char) : Bool := ('a' ≤ c && c ≤ 'z') || ('A' ≤ c && c ≤ 'Z')

/-- Source `ascii_letters + "_-"` membership: the characters that continue an
IDENTIFIER token. -/
def identCont (c : Char) : Bool := isAsciiLetter c || c = '_' || c = '-'

/-- The START state of `_next_token`: classify a token by its first
character. -/
def classify (c : Char) : TokenType :=
  if c = ';' then .COMMENT
  else if c = '\"' then .STRING
  else if isDigitCh c then .NUMBER
  else if isAsciiLetter c then .IDENTIFIER
  else .ANY

/-- The FINISH step of `_next_token`: a token whose text is a reserved word is
promoted to KEYWORD. -/
def mkToken (t : TokenType) (acc : String) : Token :=
  ⟨if isKeywordStr acc then .KEYWORD else t, acc⟩

/-- The IN_PROGRESS state of `_next_token`.  Crucially, if the stream runs out
while a token is in progress (`if not self._can_tokenize: return`), the Python
method returns `None` without appending the partially assembled token: the
consumed characters are discarded.  That early return is the
`(Option.none, [])` case here. -/
def tokenGo : TokenType → String → List Char → Option Token × List Char
  | _, _, [] => (Option.none, [])
  | t, acc, c :: rest =>
    match t with
    | .COMMENT =>
      if c = '\n' then (some (mkToken t acc), rest) else tokenGo t (acc.push c) rest
    | .NUMBER =>
      if !isDigitCh c then (some (mkToken t acc), rest) else tokenGo t (acc.push c) rest
    | .STRING =>
      if c = '\"' then (some (mkToken t (acc.push c)), rest) else tokenGo t (acc.push c) rest
    | .IDENTIFIER =>
      if !identCont c then (some (mkToken t acc), rest) else tokenGo t (acc.push c) rest
    | .ANY =>
      if c = '\n' then (some (mkToken t acc), rest) else tokenGo t (acc.push c) rest
    | _ => (Option.none, rest)

/-- Source `CSNadiaLanguageParser._next_token`: produce at most one token, returning
it together with the remaining stream. -/
def nextToken : List Char → Option Token × List Char
  | [] => (Option.none, [])
  | c :: rest => tokenGo (classify c) (String.singleton c) rest

/-- The loop of `CSNadiaLanguageParser.tokenize`, with fuel: each
`_next_token` call consumes at least one character, so `s.length` fuel is
enough for stream `s`. -/
def tokenizeGo : Nat → List Char → List Token
  | 0, _ => []
  | _, [] => []
  | fuel + 1, s =>
    match nextToken s with
    | (some t, rest) => t :: tokenizeGo fuel rest
    | (Option.none, rest) => tokenizeGo fuel rest

/-- Source `CSNadiaLanguageParser.tokenize` on a character stream. -/
def tokenizeChars (s : List Char) : List Token := tokenizeGo s.length s

/-- Source `CSNadiaLanguageParser.tokenize` of a parser constructed on a string. -/
def tokenizeStr (s : String) : List Token := tokenizeChars s.data

/-- The dynamic values NadiaVM computes with: Python ints, strings, keyword
and command enum members, and `None`. -/
inductive Value where
  | int (n : Int)
  | str (s : String)
  | kw (k : Keyword)
  | cmd (c : Command)
  | none
  deriving DecidableEq

/-- The numeric value of a NUMBER token's contents (a nonempty digit
string). -/
def digitsVal (s : String) : Int :=
  Int.ofNat (s.data.foldl (fun n c => 10 * n + (c.toNat - 48)) 0)

/-- Source `CSNadiaLanguageToken.castable`: the typed value of a token.  NUMBER
tokens (always nonempty digit strings) become ints, KEYWORD tokens (whose
contents are always reserved words) become `Keyword` members, NONE becomes
`None`, everything else stays a raw string.  The `.getD` defaults are
unreachable by construction of the tokenizer. -/
def castable (t : Token) : Value :=
  match t.type with
  | .NUMBER => .int (digitsVal t.contents)
  | .KEYWORD => .kw ((keywordOfString t.contents).getD .SET)
  | .NONE => .none
  | _ => .str t.contents

/-- Source `CSNadiaLanguageInstruction`: a command plus its typed parameters. -/
structure Instruction where
  command : Command
  parameters : List Value
  deriving DecidableEq

/-- First-match lookup in a Python dict modelled as an association list. -/
def assocGet {β : Type} (k : Value) : List (Value × β) → Option β
  | [] => Option.none
  | (k', v) :: rest => if k' = k then some v else assocGet k rest

/-- Python dict assignment `d[k] = v`: update in place when the key exists
(keeping its position, as Python dicts do), otherwise append. -/
def assocSet {β : Type} (k : Value) (v : β) : List (Value × β) → List (Value × β)
  | [] => [(k, v)]
  | (k', v') :: rest => if k' = k then (k, v) :: rest else (k', v') :: assocSet k v rest

/-- The binding table `_binds`: alias keys to `Command` members.  Keys are
`Value`s because the VM's `_bind` handler uses an instruction parameter as
the dict key; string lookups (from token contents) use `Value.str`. -/
def Binds : Type := List (Value × Command)

/-- Source `contents in self._binds` for a token-contents string. -/
def bindsHas (binds : Binds) (s : String) : Bool := (assocGet (.str s) binds).isSome

/-- Source `CSNadiaLanguageParser._is_command`: a string is a command when it is a
bound alias, or a reserved keyword other than `constant`/`origin`/`player`. -/
def isCommandStr (binds : Binds) (s : String) : Bool :=
  if bindsHas binds s then true
  else if !isKeywordStr s then false
  else match keywordOfString s with
    | some .CONSTANT | some .ORIGIN | some .PLAYER => false
    | _ => true

/-- Source `CSNadiaLangParseError` (plus the `ValueError` the parameter loop can
raise, and a fuel marker unreachable for the fuel we supply). -/
inductive ParseErr where
  | notTokenized
  | expectedKeyword (s : String)
  | expectedCommand (s : String)
  | invalidExpression (s : String)
  | valueError (s : String)
  | outOfFuel
  deriving DecidableEq

/-- The parameter loop of `_parse_command`:

```
while curr and (not did_get_binding or not self._is_command(curr.contents)):
    if command == BIND and self._is_command(curr.contents):
        did_get_binding = True
        parameters.append(CSNadiaLanguageCommand(curr.contents))
    else:
        parameters.append(curr.castable)
    self._advance()
    curr = self._parsable["current"]
```

Note the loop's guard: before a `bind` target has been captured,
`not did_get_binding` is true and the loop keeps consuming even command
tokens; only after `did_get_binding` does it stop at the next command.
The state is the pair (`curr`, remaining tokens); `_advance` pops the head
of the remaining tokens into `curr`.  Fuel (one unit per consumed token)
makes the recursion structural; `tokens.length + 1` is always enough. -/
def paramLoop (binds : Binds) (command : Command) :
    Nat → Bool → Option Token → List Token → List Value →
    Except ParseErr (List Value × Option Token × List Token)
  | 0, _, _, _, _ => .error .outOfFuel
  | _ + 1, _, Option.none, toks, acc => .ok (acc, Option.none, toks)
  | fuel + 1, didBind, some t, toks, acc =>
    if !didBind || !isCommandStr binds t.contents then
      if command = .BIND && isCommandStr binds t.contents then
        match commandOfString t.contents with
        | some c => paramLoop binds command fuel true toks.head? (toks.drop 1) (acc ++ [.cmd c])
        | Option.none => .error (.valueError t.contents)
      else
        paramLoop binds command fuel didBind toks.head? (toks.drop 1) (acc ++ [castable t])
    else .ok (acc, some t, toks)

/-- Source `CSNadiaLanguageParser._parse_command`, starting from the current token
`t` with `toks` still pending.  Returns the instruction plus the
(`current`, remaining-tokens) pair the loop stopped on. -/
def parseCommand (binds : Binds) (t : Token) (toks : List Token) :
    Except ParseErr (Instruction × Option Token × List Token) :=
  if t.type ≠ .KEYWORD && !bindsHas binds t.contents then
    .error (.expectedKeyword t.contents)
  else if !isCommandStr binds t.contents && !bindsHas binds t.contents then
    .error (.expectedCommand t.contents)
  else
    -- command = Command(contents) if contents not in binds else binds[contents]
    -- (the `.getD .EXIT` mirrors the method's `command = Command.EXIT`
    -- initializer and is unreachable: the guards above ensure the lookup
    -- succeeds when the alias is unbound)
    let command :=
      match assocGet (Value.str t.contents) binds with
      | some c => c
      | Option.none => (commandOfString t.contents).getD .EXIT
    match paramLoop binds command (toks.length + 1) false toks.head? (toks.drop 1) [] with
    | .ok (ps, cur, rest) => .ok (⟨command, ps⟩, cur, rest)
    | .error e => .error e

/-- The `while self._can_parse` loop of `CSNadiaLanguageParser.parse`.  Each
iteration pops the head token into `current` — discarding whatever token
`_parse_command` left in `current`, because `_advance` overwrites it —
then skips comments, parses a command, or fails. -/
def parseLoop (binds : Binds) :
    Nat → List Token → List Instruction → Except ParseErr (List Instruction)
  | 0, _, _ => .error .outOfFuel
  | _ + 1, [], acc => .ok acc
  | fuel + 1, t :: rest, acc =>
    if t.type = .COMMENT then parseLoop binds fuel rest acc
    else if isCommandStr binds t.contents || bindsHas binds t.contents then
      match parseCommand binds t rest with
      | .ok (ins, _, toks') => parseLoop binds fuel toks' (acc ++ [ins])
      | .error e => .error e
    else .error (.invalidExpression t.contents)

/-- Source `CSNadiaLanguageParser.parse` applied to an already tokenized stream. -/
def parseTokens (binds : Binds) (toks : List Token) : Except ParseErr (List Instruction) :=
  parseLoop binds (toks.length + 1) toks []

/-- Source `CSNadiaLanguageParser(source, bindings=binds).parse()`: tokenize the
whole input, then run the parse loop (an empty source yields `[]`). -/
def parseProgram (binds : Binds) (source : String) : Except ParseErr (List Instruction) :=
  parseTokens binds (tokenizeStr source)

/-! The virtual machine (`vm.py`, class `CSNadiaVM`)

`CSNadiaVM` keeps all of its state in the instance's `__dict__`: the operand
stack `_stack`, the cast table `_casts`, the binding table `_binds`, the raw
instruction lines `_instructions`, the parsed program `_parsed_instructions`,
the player position `_player_pos`, the flag `is_interactive` — and, because
`_alloc` writes through `self.__dict__[name]`, every named array as well.
The state is therefore modelled as one association list from keys to Python
objects, exactly as in the source. -/

/-- The shapes of Python objects stored in the VM's `__dict__`. -/
inductive PyObj where
  | vlist (xs : List Value)
  | castMap (m : List (Value × Value))
  | bindMap (m : List (Value × Command))
  | strList (xs : List String)
  | insList (xs : List Instruction)
  | pyPos (x y : Int)
  | pyBool (b : Bool)
  deriving DecidableEq

/-- The VM instance's `__dict__`. -/
def VMDict : Type := List (Value × PyObj)

/-- Runtime faults of the VM (Python exception classes). -/
inductive VMErr where
  | indexError
  | keyError
  | typeError
  | valueError
  | zeroDivision
  | parseFail (e : ParseErr)
  deriving DecidableEq

/-- Read the attribute named `s` from the instance `__dict__`. -/
def getAttr (d : VMDict) (s : String) : Option PyObj := assocGet (.str s) d

/-- Source `self.__dict__[k] = o` for an attribute named by a string. -/
def writeAttr (s : String) (o : PyObj) (d : VMDict) : VMDict :=
  assocSet (.str s) o d

/-- Source `self._stack` read, expecting the operand-stack list.  After `__init__`
the entry always exists; it is a `vlist` unless `alloc` rebinds it — in
which case it is still a `vlist`, so the error case is unreachable. -/
def readStack (d : VMDict) : Except VMErr (List Value) :=
  match getAttr d "_stack" with
  | some (.vlist xs) => .ok xs
  | _ => .error .typeError

/-- Source `self._stack.pop()`: remove and return the last element
(`IndexError` on an empty list). -/
def popTop (d : VMDict) : Except VMErr (Value × VMDict) := do
  let xs ← readStack d
  match xs.getLast? with
  | some v => .ok (v, writeAttr "_stack" (.vlist xs.dropLast) d)
  | Option.none => .error .indexError

/-- Source `self._stack.append(v)`. -/
def pushVal (v : Value) (d : VMDict) : Except VMErr VMDict := do
  let xs ← readStack d
  .ok (writeAttr "_stack" (.vlist (xs ++ [v])) d)

/-- Python list indexing: negative indices count from the end;
anything not in `[-len, len)` is an `IndexError`. -/
def pyIdx (len : Nat) (i : Int) : Option Nat :=
  let j := if i < 0 then i + len else i
  if 0 ≤ j ∧ j < len then some j.toNat else Option.none

/-- Source `int(v)`: ints pass through, decimal-literal strings are parsed
(other strings raise `ValueError`), every other shape raises `TypeError`. -/
def pyInt : Value → Option Int
  | .int n => some n
  | .str s =>
    match s.data with
    | [] => Option.none
    | '-' :: ds => if ds ≠ [] && ds.all isDigitCh then some (-(digitsVal (String.mk ds))) else Option.none
    | ds => if ds.all isDigitCh then some (digitsVal (String.mk ds)) else Option.none
  | _ => Option.none

/-- Source `CSNadiaVM._alloc(name, size)`:
`self.__dict__[name] = [None for _ in range(size)]` — note the write goes
straight into the instance dictionary, so `name` may alias any VM
attribute.  `range` needs an int (negative sizes give an empty list). -/
def vmAlloc (name size : Value) (d : VMDict) : Except VMErr VMDict :=
  match size with
  | .int n => .ok (assocSet name (.vlist (List.replicate n.toNat Value.none)) d)
  | _ => .error .typeError

/-- Source `CSNadiaVM._set(target, value)`: push `value` when `target` is the
`constant` keyword; when `target` is a string that is an existing cast-table
key, assign `self._casts[target] = value`; otherwise do nothing. -/
def vmSet (target value : Value) (d : VMDict) : Except VMErr VMDict :=
  match target with
  | .kw k =>
    if k = Keyword.CONSTANT then do
      let xs ← readStack d
      .ok (writeAttr "_stack" (.vlist (xs ++ [value])) d)
    else .ok d
  | .str _ =>
    match getAttr d "_casts" with
    | some (.castMap m) =>
      if (assocGet target m).isSome then
        .ok (writeAttr "_casts" (.castMap (assocSet target value m)) d)
      else .ok d
    | _ => .error .typeError
  | _ => .ok d

/-- Source `CSNadiaVM._push(name, index)`:
`self.__dict__[name][index] = self._stack.pop()` (RHS first, then the
subscript store; missing name is a `KeyError`, a bad index an
`IndexError`). -/
def vmPush (name index : Value) (d : VMDict) : Except VMErr VMDict := do
  let (v, d) ← popTop d
  match assocGet name d with
  | some (.vlist arr) =>
    match index with
    | .int i =>
      match pyIdx arr.length i with
      | some j => .ok (assocSet name (.vlist (arr.set j v)) d)
      | Option.none => .error .indexError
    | _ => .error .typeError
  | some _ => .error .typeError
  | Option.none => .error .keyError

/-- Source `CSNadiaVM._pop(name, index)`:
`self._stack.append(self.__dict__[name][index])`, then clear the slot. -/
def vmPop (name index : Value) (d : VMDict) : Except VMErr VMDict := do
  match assocGet name d with
  | some (.vlist arr) =>
    match index with
    | .int i =>
      match pyIdx arr.length i with
      | some j => do
        let d ← pushVal (arr.getD j Value.none) d
        .ok (assocSet name (.vlist (arr.set j Value.none)) d)
      | Option.none => .error .indexError
    | _ => .error .typeError
  | some _ => .error .typeError
  | Option.none => .error .keyError

/-- The `transforms` table of `_move`, with
`transforms.get(direction, transforms["east"])`. -/
def moveVector (dir : Value) : Int × Int :=
  match dir with
  | .str "north" => (-1, 0)
  | .str "south" => (1, 0)
  | .str "west" => (0, -1)
  | .str "east" => (0, 1)
  | _ => (0, 1)

/-- Source `CSNadiaVM._move(direction)`: translate the player position by the
direction's unit vector. -/
def vmMove (dir : Value) (d : VMDict) : Except VMErr VMDict :=
  match getAttr d "_player_pos" with
  | some (.pyPos x y) =>
    .ok (writeAttr "_player_pos" (.pyPos (x + (moveVector dir).1) (y + (moveVector dir).2)) d)
  | _ => .error .typeError

/-- Source `CSNadiaLanguageCommand(command)` as `_bind` applies it: a `Command`
member passes through, a string is looked up by value, anything else raises
`ValueError`. -/
def valueToCommand : Value → Option Command
  | .cmd c => some c
  | .str s => commandOfString s
  | _ => Option.none

/-- Source `CSNadiaVM._bind(name, command)` (the second definition in the source,
which overrides the first):
`if name not in self._binds: self._binds[name] = Command(command)` —
first binding wins; a re-bind of an existing name does nothing at all. -/
def vmBind (name command : Value) (d : VMDict) : Except VMErr VMDict :=
  match getAttr d "_binds" with
  | some (.bindMap m) =>
    if (assocGet name m).isSome then .ok d
    else
      match valueToCommand command with
      | some c => .ok (writeAttr "_binds" (.bindMap (assocSet name c m)) d)
      | Option.none => .error .valueError
  | _ => .error .typeError

/-- Source `name not in CSNadiaLanguageParser.reserved()`: only a string can equal
one of the reserved keyword strings. -/
def isReservedName : Value → Bool
  | .str s => isKeywordStr s
  | _ => false

/-- Source `CSNadiaVM._cast(name, value)`: register or overwrite the cast unless the
name collides with a reserved word (then it is silently dropped). -/
def vmCast (name value : Value) (d : VMDict) : Except VMErr VMDict :=
  match getAttr d "_casts" with
  | some (.castMap m) =>
    if isReservedName name then .ok d
    else .ok (writeAttr "_casts" (.castMap (assocSet name value m)) d)
  | _ => .error .typeError

/-- Source `CSNadiaVM._add`: `x = pop(); y = pop(); append(int(x) + int(y))`. -/
def vmAdd (d : VMDict) : Except VMErr VMDict := do
  let (x, d) ← popTop d
  let (y, d) ← popTop d
  match pyInt x, pyInt y with
  | some a, some b => pushVal (.int (a + b)) d
  | _, _ => .error .typeError

/-- Source `CSNadiaVM._sub`: `append(int(x) - int(y))` with `x` the old top. -/
def vmSub (d : VMDict) : Except VMErr VMDict := do
  let (x, d) ← popTop d
  let (y, d) ← popTop d
  match pyInt x, pyInt y with
  | some a, some b => pushVal (.int (a - b)) d
  | _, _ => .error .typeError

/-- Source `CSNadiaVM._mult`: `append(int(x) * int(y))`. -/
def vmMult (d : VMDict) : Except VMErr VMDict := do
  let (x, d) ← popTop d
  let (y, d) ← popTop d
  match pyInt x, pyInt y with
  | some a, some b => pushVal (.int (a * b)) d
  | _, _ => .error .typeError

/-- Source `CSNadiaVM._div`: `append(int(x) / int(y))`.  The host runtime is Ren'Py's
Python 2 (see `core/template.py`), where `/` on two ints is floor division,
so the result is the floor of `x / y` (`Int.fdiv`); dividing by zero raises
`ZeroDivisionError`. -/
def vmDiv (d : VMDict) : Except VMErr VMDict := do
  let (x, d) ← popTop d
  let (y, d) ← popTop d
  match pyInt x, pyInt y with
  | some a, some b => if b = 0 then .error .zeroDivision else pushVal (.int (Int.fdiv a b)) d
  | _, _ => .error .typeError

/-- Source `CSNadiaVM._neg`: push `-1`, then `_mult`. -/
def vmNeg (d : VMDict) : Except VMErr VMDict := do
  let d ← pushVal (.int (-1)) d
  vmMult d

/-! The cast-substitution pass and the method next() -/

/-- Source `parameters.index(cast)`: position of the first occurrence
(callers guard membership, so the out-of-list value is never compared). -/
def listIndex (a : Value) : List Value → Nat
  | [] => 0
  | b :: rest => if b = a then 0 else listIndex a rest + 1

/-- One step of `while cast in parameters:`
`parameters[parameters.index(cast)] = self._casts[cast]`. -/
def replaceFirst (a v : Value) : List Value → List Value
  | [] => []
  | b :: rest => if b = a then v :: rest else b :: replaceFirst a v rest

/-- The `while cast in current.parameters` loop, given fuel.  When the stored
value differs from the key each iteration removes one occurrence, so
`ps.length` fuel always suffices; when the stored value IS the key the
Python loop never terminates (the fuel-exhausted result is then never
reported as the behaviour of the source). -/
def replaceLoop (a v : Value) : Nat → List Value → List Value
  | 0, ps => ps
  | fuel + 1, ps => if ps.contains a then replaceLoop a v fuel (replaceFirst a v ps) else ps

/-- The body of `next()`'s `for cast in self._casts:` loop for one cast-table
entry `kv`, applied to the current parameter list:

```
if cast not in current.parameters: continue
if current.command == Command.CAST: continue
if current.command == Command.SET and current.parameters.index(cast) == 0: continue
while cast in current.parameters:
    current.parameters[current.parameters.index(cast)] = self._casts[cast]
```
-/
def substEntry (cmd : Command) (ps : List Value) (kv : Value × Value) : List Value :=
  if !ps.contains kv.1 then ps
  else if cmd = Command.CAST then ps
  else if cmd = Command.SET && listIndex kv.1 ps = 0 then ps
  else replaceLoop kv.1 kv.2 ps.length ps

/-- The whole substitution pass of `next()`: fold over the cast table in
insertion order, mutating the parameter list as it goes. -/
def substParams (casts : List (Value × Value)) (cmd : Command) (ps : List Value) : List Value :=
  casts.foldl (substEntry cmd) ps

/-- The handler-dispatch tail of `next()`: two positional parameters for
`alloc/push/pop/bind/cast/set` (an out-of-range `parameters[i]` is an
`IndexError`), the LAST parameter for `move`, no parameters otherwise;
`exit` and `collect` hit the `dummy_func` no-op. -/
def dispatch (c : Command) (ps : List Value) (d : VMDict) : Except VMErr VMDict :=
  if c = .ALLOC || c = .PUSH || c = .POP || c = .BIND || c = .CAST || c = .SET then
    match ps with
    | p0 :: p1 :: _ =>
      match c with
      | .ALLOC => vmAlloc p0 p1 d
      | .PUSH => vmPush p0 p1 d
      | .POP => vmPop p0 p1 d
      | .BIND => vmBind p0 p1 d
      | .CAST => vmCast p0 p1 d
      | _ => vmSet p0 p1 d
    | _ => .error .indexError
  else if c = .MOVE then
    match ps.getLast? with
    | some p => vmMove p d
    | Option.none => .error .indexError
  else
    match c with
    | .ADD => vmAdd d
    | .SUB => vmSub d
    | .MULT => vmMult d
    | .DIV => vmDiv d
    | .NEG => vmNeg d
    | _ => .ok d

/-- Source `CSNadiaVM._parse_all`: when raw instruction lines are present, re-parse
their `"\n"`-join with a copy of the current binding table, REPLACING
`_parsed_instructions` wholesale. -/
def parseAll (d : VMDict) : Except VMErr VMDict :=
  match getAttr d "_instructions" with
  | some (.strList xs) =>
    if xs.isEmpty then .ok d
    else
      match getAttr d "_binds" with
      | some (.bindMap m) =>
        match parseProgram m (String.intercalate "\n" xs) with
        | .ok ins => .ok (writeAttr "_parsed_instructions" (.insList ins) d)
        | .error e => .error (.parseFail e)
      | _ => .error .typeError
  | _ => .error .typeError

/-- Source `CSNadiaVM.next()`: `_parse_all`, take `_parsed_instructions[0]`
(`IndexError` when empty), run the cast-substitution pass (which mutates the
stored instruction's parameter list in place), then dispatch.  Nothing is
ever removed from `_parsed_instructions`. -/
def vmNext (d : VMDict) : Except VMErr VMDict := do
  let d ← parseAll d
  match getAttr d "_parsed_instructions" with
  | some (.insList (ins :: rest)) =>
    match getAttr d "_casts" with
    | some (.castMap casts) =>
      let ps := substParams casts ins.command ins.parameters
      let d := writeAttr "_parsed_instructions" (.insList (⟨ins.command, ps⟩ :: rest)) d
      dispatch ins.command ps d
    | _ => .error .typeError
  | some (.insList []) => .error .indexError
  | _ => .error .typeError

/-- Source `self.is_interactive` truthiness (`__init__` always stores a bool; the
class attribute default is `False`). -/
def vmIsInteractive (d : VMDict) : Bool :=
  match getAttr d "is_interactive" with
  | some (.pyBool b) => b
  | some (.vlist xs) => !xs.isEmpty
  | some (.castMap m) => !m.isEmpty
  | some (.bindMap m) => !m.isEmpty
  | some (.strList xs) => !xs.isEmpty
  | some (.insList xs) => !xs.isEmpty
  | some (.pyPos _ _) => true
  | Option.none => false

/-- Source `CSNadiaVM.input(command)`: a no-op returning `None` unless interactive;
otherwise splice `command + "\n"` onto the front of `_instructions`, run
`next()`, pop the spliced line again, and return the stack top (or `None`
when the stack is empty). -/
def vmInput (command : String) (d : VMDict) : Except VMErr (Option Value × VMDict) :=
  if !vmIsInteractive d then .ok (Option.none, d)
  else
    match getAttr d "_instructions" with
    | some (.strList xs) => do
      let d := writeAttr "_instructions" (.strList ((command ++ "\n") :: xs)) d
      let d ← vmNext d
      match getAttr d "_instructions" with
      | some (.strList (_ :: ys)) =>
        let d := writeAttr "_instructions" (.strList ys) d
        match getAttr d "_stack" with
        | some (.vlist stack) =>
          if stack.isEmpty then .ok (Option.none, d)
          else .ok (stack.getLast?, d)
        | _ => .error .typeError
      | _ => .error .indexError
    | _ => .error .typeError

/-- Source `str.split("\n")` (Python semantics: `""` splits to `[""]`,
separators delimit possibly empty fields). -/
def pySplitNl : List Char → List (List Char)
  | [] => [[]]
  | c :: rest =>
    let r := pySplitNl rest
    if c = '\n' then [] :: r
    else
      match r with
      | h :: t => (c :: h) :: t
      | [] => [[c]]

/-- Source `CSNadiaVM.__init__`: fresh stack/cast/bind containers; with a program
source, `_instructions` is the list of NONEMPTY lines
(`[a for a in source.split("\n") if a]`) while `_parsed_instructions` is the
parse of the RAW source (with no seed bindings); then the player origin and
the interactive flag. -/
def vmInit (source : Option String) (origin : Int × Int) (interactive : Bool) :
    Except VMErr VMDict := do
  let d : VMDict :=
    [(.str "_stack", .vlist []), (.str "_casts", .castMap []), (.str "_binds", .bindMap [])]
  let d ←
    match source with
    | some src =>
      match parseProgram [] src with
      | .ok ins =>
        .ok (writeAttr "_parsed_instructions" (.insList ins)
              (writeAttr "_instructions"
                (.strList (((pySplitNl src.data).map String.mk).filter (fun a => a ≠ ""))) d))
      | .error e => .error (.parseFail e)
    | Option.none =>
      .ok (writeAttr "_parsed_instructions" (.insList [])
            (writeAttr "_instructions" (.strList []) d))
  let d := writeAttr "_player_pos" (.pyPos origin.1 origin.2) d
  .ok (writeAttr "is_interactive" (.pyBool interactive) d)

/-! Read-only views (`CSNadiaVM`'s public accessors) -/

/-- Source `CSNadiaVM.has_more_instructions`: `len(self._parsed_instructions) > 0`. -/
def hasMoreInstructions (d : VMDict) : Bool :=
  match getAttr d "_parsed_instructions" with
  | some (.insList xs) => !xs.isEmpty
  | _ => false

/-- Source `CSNadiaVM.preview_next_instruction`: the next command's value string,
without executing. -/
def previewNextInstruction (d : VMDict) : Option String :=
  match getAttr d "_parsed_instructions" with
  | some (.insList (i :: _)) => some (commandValue i.command)
  | _ => Option.none

/-- Source `CSNadiaVM.get_vm_stack`. -/
def getVmStack (d : VMDict) : Option (List Value) :=
  match getAttr d "_stack" with
  | some (.vlist xs) => some xs
  | _ => Option.none

/-- Source `CSNadiaVM.get_namespace(name)`: the named item, provided it is a list. -/
def getNamespace (name : String) (d : VMDict) : Option (List Value) :=
  match getAttr d name with
  | some (.vlist xs) => some xs
  | _ => Option.none

/-- Source `CSNadiaVM.get_position`. -/
def getPosition (d : VMDict) : Option (Int × Int) :=
  match getAttr d "_player_pos" with
  | some (.pyPos x y) => some (x, y)
  | _ => Option.none

/-- Source `CSNadiaVM.get_binding(name)`: `self._binds.get(name, None)`. -/
def getBinding (name : Value) (d : VMDict) : Option Command :=
  match getAttr d "_binds" with
  | some (.bindMap m) => assocGet name m
  | _ => Option.none

/-- The cast table, viewed as a list of entries in insertion order. -/
def getCastsView (d : VMDict) : Option (List (Value × Value)) :=
  match getAttr d "_casts" with
  | some (.castMap m) => some m
  | _ => Option.none

/-- The raw instruction-line queue `_instructions`. -/
def getInstrQueue (d : VMDict) : Option (List String) :=
  match getAttr d "_instructions" with
  | some (.strList xs) => some xs
  | _ => Option.none

/-- The parsed program `_parsed_instructions`. -/
def getParsed (d : VMDict) : Option (List Instruction) :=
  match getAttr d "_parsed_instructions" with
  | some (.insList xs) => some xs
  | _ => Option.none

/-- Run one `next()` on an `Except`-wrapped state (composition helper for
concrete execution traces). -/
def vmStep (r : Except VMErr VMDict) : Except VMErr VMDict := r.bind vmNext

/-- Run one interactive `input(command)` on an `Except`-wrapped state,
keeping only the machine state. -/
def vmFeed (command : String) (r : Except VMErr VMDict) : Except VMErr VMDict :=
  r.bind (fun d => (vmInput command d).map Prod.snd)

/-! Basic lemmas about the dictionary model and the stack primitives. -/

theorem assocGet_assocSet_self {β : Type} (k : Value) (v : β) :
    ∀ l : List (Value × β), assocGet k (assocSet k v l) = some v
  | [] => by simp [assocSet, assocGet]
  | (k', v') :: rest => by
    by_cases h : k' = k
    · simp [assocSet, assocGet, h]
    · simp [assocSet, assocGet, h, assocGet_assocSet_self k v rest]

theorem assocGet_assocSet_ne {β : Type} (k k' : Value) (v : β) (h : k' ≠ k) :
    ∀ l : List (Value × β), assocGet k' (assocSet k v l) = assocGet k' l
  | [] => by
    have hk : k ≠ k' := Ne.symm h
    simp [assocSet, assocGet, hk]
  | (k'', v'') :: rest => by
    by_cases hk : k'' = k
    · subst hk
      have hne : k'' ≠ k' := Ne.symm h
      simp [assocSet, assocGet, hne]
    · simp only [assocSet, if_neg hk]
      by_cases hk' : k'' = k'
      · simp [assocGet, hk']
      · simp [assocGet, hk', assocGet_assocSet_ne k k' v h rest]

theorem assocSet_assocSet {β : Type} (k : Value) (v w : β) :
    ∀ l : List (Value × β), assocSet k v (assocSet k w l) = assocSet k v l
  | [] => by simp [assocSet]
  | (k', v') :: rest => by
    by_cases h : k' = k
    · simp [assocSet, h]
    · simp [assocSet, h, assocSet_assocSet k v w rest]

theorem getAttr_writeAttr_self (s : String) (o : PyObj) (d : VMDict) :
    getAttr (writeAttr s o d) s = some o :=
  assocGet_assocSet_self _ _ _

theorem getAttr_writeAttr_ne (s s' : String) (o : PyObj) (d : VMDict) (h : s' ≠ s) :
    getAttr (writeAttr s o d) s' = getAttr d s' :=
  assocGet_assocSet_ne _ _ _ (fun hh => h (Value.str.inj hh)) _

theorem writeAttr_writeAttr (s : String) (o o' : PyObj) (d : VMDict) :
    writeAttr s o (writeAttr s o' d) = writeAttr s o d :=
  assocSet_assocSet _ _ _ _

theorem readStack_eq {d : VMDict} {xs : List Value}
    (h : getAttr d "_stack" = some (.vlist xs)) : readStack d = .ok xs := by
  unfold readStack
  rw [h]

theorem bind_ok {ε α β : Type} (a : α) (f : α → Except ε β) :
    (Except.ok a >>= f) = f a := rfl

theorem popTop_concat {d : VMDict} {l : List Value} {v : Value}
    (h : getAttr d "_stack" = some (.vlist (l ++ [v]))) :
    popTop d = .ok (v, writeAttr "_stack" (.vlist l) d) := by
  unfold popTop
  rw [readStack_eq h, bind_ok]
  simp

theorem pushVal_eq {d : VMDict} {xs : List Value} (v : Value)
    (h : getAttr d "_stack" = some (.vlist xs)) :
    pushVal v d = .ok (writeAttr "_stack" (.vlist (xs ++ [v])) d) := by
  unfold pushVal
  rw [readStack_eq h, bind_ok]

/-! Lemmas about the cast-substitution loop of `next()`. -/

/-- Number of occurrences of `a` in a parameter list (proof-side measure for
the `while cast in parameters` loop). -/
def occCount (a : Value) : List Value → Nat
  | [] => 0
  | b :: r => (if b = a then 1 else 0) + occCount a r

theorem occCount_le_length (a : Value) : ∀ ps : List Value, occCount a ps ≤ ps.length
  | [] => Nat.le_refl 0
  | b :: r => by
    have := occCount_le_length a r
    by_cases h : b = a <;> simp [occCount, h, List.length_cons] <;> omega

theorem occCount_eq_zero_iff (a : Value) :
    ∀ ps : List Value, occCount a ps = 0 ↔ ps.contains a = false
  | [] => by simp [occCount]
  | b :: r => by
    by_cases h : b = a
    · subst h
      simp [occCount, List.contains_cons]
    · simp [occCount, List.contains_cons, h, occCount_eq_zero_iff a r, Ne.symm h]

theorem map_id_of_not_contains {a v : Value} :
    ∀ ps : List Value, ps.contains a = false →
      ps.map (fun p => if p = a then v else p) = ps
  | [], _ => rfl
  | b :: r, h => by
    simp only [List.contains_cons, Bool.or_eq_false_iff, beq_eq_false_iff_ne] at h
    simp [Ne.symm h.1, map_id_of_not_contains r (by simpa using h.2)]

theorem map_replaceFirst {a v : Value} (hvn : v ≠ a) :
    ∀ ps : List Value,
      (replaceFirst a v ps).map (fun p => if p = a then v else p) =
        ps.map (fun p => if p = a then v else p)
  | [] => rfl
  | b :: r => by
    by_cases h : b = a
    · simp [replaceFirst, h, hvn]
    · simp [replaceFirst, h, map_replaceFirst hvn r]

theorem occCount_replaceFirst {a v : Value} (hvn : v ≠ a) :
    ∀ ps : List Value, ps.contains a = true →
      occCount a (replaceFirst a v ps) + 1 = occCount a ps
  | [], h => by simp [List.contains] at h
  | b :: r, h => by
    by_cases hb : b = a
    · subst hb
      simp [replaceFirst, occCount, hvn]
      omega
    · simp only [List.contains_cons, Bool.or_eq_true, beq_iff_eq] at h
      rcases h with h | h

      · exact absurd h.symm hb
      · simp only [replaceFirst, if_neg hb, occCount]
        rw [← occCount_replaceFirst hvn r h]
        omega

theorem replaceLoop_eq_map {a v : Value} (hvn : v ≠ a) :
    ∀ (fuel : Nat) (ps : List Value), occCount a ps ≤ fuel →
      replaceLoop a v fuel ps = ps.map (fun p => if p = a then v else p)
  | 0, ps, h => by
    have h0 : occCount a ps = 0 := Nat.le_zero.mp h
    rw [replaceLoop, map_id_of_not_contains ps ((occCount_eq_zero_iff a ps).mp h0)]
  | fuel + 1, ps, h => by
    rw [replaceLoop]
    by_cases hc : ps.contains a = true
    · rw [if_pos hc]
      have hcnt : occCount a (replaceFirst a v ps) ≤ fuel := by
        have := occCount_replaceFirst hvn ps hc
        omega
      rw [replaceLoop_eq_map hvn fuel (replaceFirst a v ps) hcnt, map_replaceFirst hvn ps]
    · rw [if_neg hc, map_id_of_not_contains ps (by simpa using hc)]

theorem listIndex_zero_iff {a : Value} :
    ∀ ps : List Value, ps.contains a = true → (listIndex a ps = 0 ↔ ps.head? = some a)
  | [], h => by simp [List.contains] at h
  | b :: r, _ => by
    by_cases hb : b = a
    · subst hb
      simp [listIndex]
    · simp [listIndex, hb, Ne.symm hb]

/-! Lemmas about the tokenizer on streams that end mid-token. -/

theorem classify_lower {c : Char} (h1 : 'a' ≤ c) (h2 : c ≤ 'z') :
    classify c = .IDENTIFIER := by
  have hne1 : c ≠ ';' := by rintro rfl; exact absurd h1 (by decide)
  have hne2 : c ≠ '\"' := by rintro rfl; exact absurd h1 (by decide)
  have h9 : ¬ (c ≤ '9') := fun hc => absurd (le_trans h1 hc) (by decide)
  have hd : isDigitCh c = false := by simp [isDigitCh, h9]
  have ha : isAsciiLetter c = true := by simp [isAsciiLetter, h1, h2]
  simp [classify, hne1, hne2, hd, ha]

theorem tokenGo_lower (acc : String) :
    ∀ cs : List Char, (∀ c ∈ cs, 'a' ≤ c ∧ c ≤ 'z') →
      tokenGo .IDENTIFIER acc cs = (Option.none, [])
  | [], _ => rfl
  | c :: rest, h => by
    have hc := h c (by simp)
    have hident : identCont c = true := by
      simp [identCont, isAsciiLetter, hc.1, hc.2]
    have hrest : ∀ x ∈ rest, 'a' ≤ x ∧ x ≤ 'z' := fun x hx => h x (by simp [hx])
    simp only [tokenGo, hident, Bool.not_true, Bool.false_eq_true, if_false]
    exact tokenGo_lower (acc.push c) rest hrest

theorem tokenizeGo_nil : ∀ n : Nat, tokenizeGo n [] = []
  | 0 => rfl
  | _ + 1 => rfl

theorem tokenize_lower :
    ∀ cs : List Char, cs ≠ [] → (∀ c ∈ cs, 'a' ≤ c ∧ c ≤ 'z') → tokenizeChars cs = []
  | [], hne, _ => absurd rfl hne
  | c :: rest, _, h => by
    have hc := h c (by simp)
    have hrest : ∀ x ∈ rest, 'a' ≤ x ∧ x ≤ 'z' := fun x hx => h x (by simp [hx])
    show tokenizeGo (rest.length + 1) (c :: rest) = []
    rw [tokenizeGo]
    · simp only [nextToken, classify_lower hc.1 hc.2, tokenGo_lower _ rest hrest]
      exact tokenizeGo_nil rest.length
    · simp

theorem head?_contains {a : Value} : ∀ ps : List Value, ps.head? = some a → ps.contains a = true
  | b :: _, h => by
    simp only [List.head?_cons, Option.some.injEq] at h
    simp [List.contains_cons, h]

/-! Per-claim results. -/

/-- C1: the claim says `parse` produces one Instruction per top-level command
(three for the program `set constant 5` / `set constant 10` / `add`).  The code
does not: the parameter loop's guard `not did_get_binding or not is_command`
is true throughout for non-`bind` commands, so the first command greedily
consumes every remaining token as a parameter and the whole three-line
program collapses into a single `set` Instruction. -/
theorem c1_parse_collapses_to_one_instruction :
    parseProgram [] "set constant 5\nset constant 10\nadd\n" =
      .ok [⟨.SET, [.kw .CONSTANT, .int 5, .kw .SET, .kw .CONSTANT, .int 10, .kw .ADD]⟩] ∧
    (parseProgram [] "set constant 5\nset constant 10\nadd\n").map List.length = .ok 1 :=
  ⟨rfl, rfl⟩

/-- C2: the claim says the k-th call to `next()` executes the k-th instruction
and consumes it, with `has_more_instructions()` false after n calls.  The code
never removes anything from `_parsed_instructions` (and `_parse_all` rebuilds
the full list on every call), so for the one-instruction program
`move player east` the first `next()` moves the player east, yet
`has_more_instructions()` stays true and a second `next()` executes the same
instruction again, moving east a second time. -/
theorem c2_next_never_consumes :
    (vmInit (some "move player east\n") (0, 0) false).map getPosition = .ok (some (0, 0)) ∧
    (vmInit (some "move player east\n") (0, 0) false).map hasMoreInstructions = .ok true ∧
    (vmStep (vmInit (some "move player east\n") (0, 0) false)).map getPosition =
      .ok (some (0, 1)) ∧
    (vmStep (vmInit (some "move player east\n") (0, 0) false)).map hasMoreInstructions =
      .ok true ∧
    (vmStep (vmStep (vmInit (some "move player east\n") (0, 0) false))).map getPosition =
      .ok (some (0, 2)) ∧
    (vmStep (vmStep (vmInit (some "move player east\n") (0, 0) false))).map
      hasMoreInstructions = .ok true :=
  ⟨rfl, rfl, rfl, rfl, rfl, rfl⟩

/-- C3 counterexample: the claim says an input ending mid-token (`add` with no
trailing newline) still yields a final token with the consumed characters.
In fact `tokenize` returns no token at all for `add`: the three consumed
characters are lost. -/
theorem c3_counterexample_trailing_token_lost :
    tokenizeStr "add" = [] ∧ tokenizeStr "add" ≠ [⟨.KEYWORD, "add"⟩] :=
  ⟨rfl, by decide⟩

/-- C3 (amended): when the stream ends while a token is in progress the
tokenizer DROPS that token rather than finalizing it — for every nonempty
all-lowercase-letter input (an identifier still in progress at end of
stream) `tokenize` returns no tokens, the consumed characters being lost;
with a terminating newline (`add` followed by a newline) the token is kept. -/
theorem c3_eof_drops_token_in_progress :
    (∀ cs : List Char, cs ≠ [] → (∀ c ∈ cs, 'a' ≤ c ∧ c ≤ 'z') → tokenizeChars cs = []) ∧
    tokenizeStr "add\n" = [⟨.KEYWORD, "add"⟩] :=
  ⟨tokenize_lower, rfl⟩

/-- C3 witness: the amended theorem applied to the concrete stream `x`. -/
theorem c3_witness : (['x'] : List Char) ≠ [] ∧ tokenizeChars ['x'] = [] :=
  ⟨by decide, c3_eof_drops_token_in_progress.1 ['x'] (by decide) (by decide)⟩

/-- C4 counterexample: the claim says executing `set` with a string first
parameter naming an existing cast entry is a no-op.  Running `cast n 7` then
`set n 3` on an interactive VM leaves the cast table holding `n = 3`: the
`set` updated the Cast Table, so it is not a no-op. -/
theorem c4_counterexample_set_updates_cast :
    (vmFeed "cast n 7" (vmInit Option.none (0, 0) true)).map getCastsView =
      .ok (some [(.str "n", .int 7)]) ∧
    (vmFeed "set n 3" (vmFeed "cast n 7" (vmInit Option.none (0, 0) true))).map getCastsView =
      .ok (some [(.str "n", .int 3)]) ∧
    (some [(Value.str "n", Value.int 3)] : Option (List (Value × Value))) ≠
      some [(.str "n", .int 7)] :=
  ⟨rfl, rfl, by decide⟩

/-- C4 (amended): executing a `set` instruction whose first parameter is a
string naming an existing Cast Table entry UPDATES that entry to the second
parameter (`self._casts[target] = value`); the operand stack, player
position, binding table and every named array other than the `_casts`
attribute itself are left unchanged. -/
theorem c4_set_on_cast_name_updates_entry :
    ∀ (d : VMDict) (m : List (Value × Value)) (s : String) (w v : Value),
      getAttr d "_casts" = some (.castMap m) →
      assocGet (Value.str s) m = some w →
      vmSet (.str s) v d = .ok (writeAttr "_casts" (.castMap (assocSet (.str s) v m)) d) ∧
      getVmStack (writeAttr "_casts" (.castMap (assocSet (.str s) v m)) d) = getVmStack d ∧
      getPosition (writeAttr "_casts" (.castMap (assocSet (.str s) v m)) d) = getPosition d ∧
      (∀ nm : Value,
        getBinding nm (writeAttr "_casts" (.castMap (assocSet (.str s) v m)) d) =
          getBinding nm d) ∧
      (∀ a : String, a ≠ "_casts" →
        getNamespace a (writeAttr "_casts" (.castMap (assocSet (.str s) v m)) d) =
          getNamespace a d) ∧
      getCastsView (writeAttr "_casts" (.castMap (assocSet (.str s) v m)) d) =
        some (assocSet (.str s) v m) := by
  intro d m s w v hm hw
  refine ⟨?_, ?_, ?_, ?_, ?_, ?_⟩
  · unfold vmSet
    rw [hm]
    simp [hw]
  · unfold getVmStack
    rw [getAttr_writeAttr_ne _ _ _ _ (by decide)]
  · unfold getPosition
    rw [getAttr_writeAttr_ne _ _ _ _ (by decide)]
  · intro nm
    unfold getBinding
    rw [getAttr_writeAttr_ne _ _ _ _ (by decide)]
  · intro a ha
    unfold getNamespace
    unfold getAttr writeAttr
    rw [assocGet_assocSet_ne _ _ _ (fun hh => ha (Value.str.inj hh))]
  · unfold getCastsView
    rw [getAttr_writeAttr_self]

/-- C4 concrete state for the witness. -/
def c4Wd : VMDict := [(.str "_casts", .castMap [(.str "n", .int 7)])]

/-- C4 witness: the amended theorem applied at a cast table holding `n = 7`
and the instruction `set n 3`. -/
theorem c4_witness :
    vmSet (.str "n") (.int 3) c4Wd =
      .ok (writeAttr "_casts" (.castMap (assocSet (.str "n") (.int 3)
            [(.str "n", .int 7)])) c4Wd) :=
  (c4_set_on_cast_name_updates_entry c4Wd [(.str "n", .int 7)] "n" (.int 7) (.int 3)
    rfl rfl).1

theorem twoPops {d : VMDict} {rest : List Value} {x y : Value}
    (h : getAttr d "_stack" = some (.vlist (rest ++ [y, x]))) :
    popTop d = .ok (x, writeAttr "_stack" (.vlist (rest ++ [y])) d) ∧
    popTop (writeAttr "_stack" (.vlist (rest ++ [y])) d) =
      .ok (y, writeAttr "_stack" (.vlist rest) (writeAttr "_stack" (.vlist (rest ++ [y])) d)) := by
  constructor
  · apply popTop_concat
    rw [List.append_assoc]
    exact h
  · exact popTop_concat (getAttr_writeAttr_self _ _ _)

theorem vmAdd_spec {d : VMDict} {rest : List Value} {x y : Int}
    (h : getAttr d "_stack" = some (.vlist (rest ++ [.int y, .int x]))) :
    vmAdd d = .ok (writeAttr "_stack" (.vlist (rest ++ [.int (x + y)])) d) := by
  obtain ⟨h1, h2⟩ := twoPops h
  unfold vmAdd
  simp only [h1, h2, bind_ok]
  show pushVal (.int (x + y)) _ = _
  rw [pushVal_eq _ (getAttr_writeAttr_self _ _ _), writeAttr_writeAttr, writeAttr_writeAttr]

theorem vmSub_spec {d : VMDict} {rest : List Value} {x y : Int}
    (h : getAttr d "_stack" = some (.vlist (rest ++ [.int y, .int x]))) :
    vmSub d = .ok (writeAttr "_stack" (.vlist (rest ++ [.int (x - y)])) d) := by
  obtain ⟨h1, h2⟩ := twoPops h
  unfold vmSub
  simp only [h1, h2, bind_ok]
  show pushVal (.int (x - y)) _ = _
  rw [pushVal_eq _ (getAttr_writeAttr_self _ _ _), writeAttr_writeAttr, writeAttr_writeAttr]

theorem vmMult_spec {d : VMDict} {rest : List Value} {x y : Int}
    (h : getAttr d "_stack" = some (.vlist (rest ++ [.int y, .int x]))) :
    vmMult d = .ok (writeAttr "_stack" (.vlist (rest ++ [.int (x * y)])) d) := by
  obtain ⟨h1, h2⟩ := twoPops h
  unfold vmMult
  simp only [h1, h2, bind_ok]
  show pushVal (.int (x * y)) _ = _
  rw [pushVal_eq _ (getAttr_writeAttr_self _ _ _), writeAttr_writeAttr, writeAttr_writeAttr]

theorem vmDiv_spec {d : VMDict} {rest : List Value} {x y : Int} (hy : y ≠ 0)
    (h : getAttr d "_stack" = some (.vlist (rest ++ [.int y, .int x]))) :
    vmDiv d = .ok (writeAttr "_stack" (.vlist (rest ++ [.int (Int.fdiv x y)])) d) := by
  obtain ⟨h1, h2⟩ := twoPops h
  unfold vmDiv
  simp only [h1, h2, bind_ok]
  show (if y = 0 then _ else pushVal (.int (Int.fdiv x y)) _ : Except VMErr VMDict) = _
  rw [if_neg hy, pushVal_eq _ (getAttr_writeAttr_self _ _ _), writeAttr_writeAttr,
    writeAttr_writeAttr]

/-- C5: each arithmetic command among `add`, `sub`, `mult`, `div` pops two
values (`x` the top, then `y`) and pushes the integer result of `x OP y`
(`div` floors, the host `/` being Python 2 integer division); and feeding
`set constant 10`, `set constant 5`, `add` through the interactive VM — the
in-repo way these three lines execute in sequence, as in
`tests/test_vm.py` — leaves `15` as the only stack entry. -/
theorem c5_arithmetic_pops_two_pushes_result :
    (∀ (d : VMDict) (rest : List Value) (x y : Int),
      getAttr d "_stack" = some (.vlist (rest ++ [.int y, .int x])) →
      vmAdd d = .ok (writeAttr "_stack" (.vlist (rest ++ [.int (x + y)])) d)) ∧
    (∀ (d : VMDict) (rest : List Value) (x y : Int),
      getAttr d "_stack" = some (.vlist (rest ++ [.int y, .int x])) →
      vmSub d = .ok (writeAttr "_stack" (.vlist (rest ++ [.int (x - y)])) d)) ∧
    (∀ (d : VMDict) (rest : List Value) (x y : Int),
      getAttr d "_stack" = some (.vlist (rest ++ [.int y, .int x])) →
      vmMult d = .ok (writeAttr "_stack" (.vlist (rest ++ [.int (x * y)])) d)) ∧
    (∀ (d : VMDict) (rest : List Value) (x y : Int), y ≠ 0 →
      getAttr d "_stack" = some (.vlist (rest ++ [.int y, .int x])) →
      vmDiv d = .ok (writeAttr "_stack" (.vlist (rest ++ [.int (Int.fdiv x y)])) d)) ∧
    (vmFeed "add" (vmFeed "set constant 5" (vmFeed "set constant 10"
      (vmInit Option.none (0, 0) true)))).map getVmStack = .ok (some [.int 15]) :=
  ⟨fun _ _ _ _ h => vmAdd_spec h,
   fun _ _ _ _ h => vmSub_spec h,
   fun _ _ _ _ h => vmMult_spec h,
   fun _ _ _ _ hy h => vmDiv_spec hy h,
   rfl⟩

/-- C5 concrete state for the witness. -/
def c5Wd : VMDict := [(.str "_stack", .vlist [.int 2, .int 7])]

/-- C5 witness: the division conjunct applied at stack `[2, 7]` (top `7`),
with the divisor hypothesis discharged; `7 div 2` floors to `3`. -/
theorem c5_witness :
    (2 : Int) ≠ 0 ∧ vmDiv c5Wd = .ok (writeAttr "_stack" (.vlist [.int 3]) c5Wd) :=
  ⟨by decide,
   c5_arithmetic_pops_two_pushes_result.2.2.2.1 c5Wd [] 7 2 (by decide) rfl⟩

/-- C6 counterexample: the claim says only the FIRST parameter of `set` is
exempt from cast substitution, so with `n` cast to `7` the instruction
`set` with parameters `[n, 1, n]` should become `[n, 1, 7]`.  In fact
`parameters.index(cast) == 0` looks at the first occurrence only and then
skips the name entirely, leaving all occurrences untouched. -/
theorem c6_counterexample_set_skips_all_occurrences :
    substParams [(.str "n", .int 7)] .SET [.str "n", .int 1, .str "n"] =
      [.str "n", .int 1, .str "n"] ∧
    ([Value.str "n", Value.int 1, Value.str "n"] : List Value) ≠
      [.str "n", .int 1, .int 7] :=
  ⟨rfl, by decide⟩

/-- C6 (amended): once `cast n v` has executed (cast table `[(n, v)]`, with
`v ≠ n`), the substitution pass before dispatch replaces every parameter
equal to `n` by `v`, with these exclusions: parameters of a `cast`
instruction are never substituted, and for a `set` instruction, if the FIRST
parameter equals `n` then NO occurrence of `n` in that instruction is
substituted (only when the first parameter differs from `n` are the other
occurrences replaced). -/
theorem c6_cast_substitution_characterization :
    ∀ (n v : Value) (c : Command) (ps : List Value), v ≠ n →
      substParams [(n, v)] c ps =
        if c = .CAST then ps
        else if c = .SET ∧ ps.head? = some n then ps
        else ps.map (fun p => if p = n then v else p) := by
  intro n v c ps hvn
  show substEntry c ps (n, v) = _
  have hrl := replaceLoop_eq_map hvn ps.length ps (occCount_le_length n ps)
  by_cases hmem : ps.contains n = true
  · have hmm : n ∈ ps := by simpa using hmem
    by_cases hcast : c = Command.CAST
    · subst hcast
      simp [substEntry, hmem, hmm]
    · by_cases hset : c = Command.SET
      · subst hset
        by_cases hidx : listIndex n ps = 0
        · have hh : ps.head? = some n := (listIndex_zero_iff ps hmem).mp hidx
          simp [substEntry, hmem, hmm, hidx, hh]
        · have hh : ¬ ps.head? = some n := fun hx =>
            hidx ((listIndex_zero_iff ps hmem).mpr hx)
          simp [substEntry, hmem, hmm, hidx, hh, hrl]
      · simp [substEntry, hmem, hmm, hcast, hset, hrl]
  · have hmem' : ps.contains n = false := by simpa using hmem
    have hnm : n ∉ ps := by simpa using hmem'
    have hh : ¬ (c = Command.SET ∧ ps.head? = some n) := fun hx =>
      hmem (head?_contains ps hx.2)
    by_cases hcast : c = Command.CAST
    · subst hcast
      simp [substEntry, hmem', hnm]
    · simp [substEntry, hmem', hnm, hcast, hh, map_id_of_not_contains ps hmem']

/-- C6 witness: the amended theorem applied to an `add` instruction with the
single parameter `n` under cast table `[(n, 7)]`. -/
theorem c6_witness :
    substParams [(.str "n", .int 7)] .ADD [.str "n"] = [.int 7] := by
  rw [c6_cast_substitution_characterization (.str "n") (.int 7) .ADD [.str "n"] (by decide)]
  rfl

/-- C7: first binding wins — executing `bind` on an already-bound alias
leaves the binding table (and what the alias resolves to) unchanged, while
binding a not-yet-bound alias registers the alias-to-command mapping. -/
theorem c7_first_bind_wins :
    ∀ (d : VMDict) (m : List (Value × Command)) (name cv : Value) (c0 : Command),
      getAttr d "_binds" = some (.bindMap m) →
      ((assocGet name m = some c0 →
        vmBind name cv d = .ok d ∧ getBinding name d = some c0) ∧
       (∀ c : Command, assocGet name m = Option.none → valueToCommand cv = some c →
        vmBind name cv d = .ok (writeAttr "_binds" (.bindMap (assocSet name c m)) d) ∧
        getBinding name (writeAttr "_binds" (.bindMap (assocSet name c m)) d) = some c)) := by
  intro d m name cv c0 hb
  constructor
  · intro hget
    constructor
    · unfold vmBind
      rw [hb]
      simp [hget]
    · unfold getBinding
      rw [hb]
      exact hget
  · intro c hnone hcv
    constructor
    · unfold vmBind
      rw [hb]
      simp [hnone, hcv]
    · unfold getBinding
      rw [getAttr_writeAttr_self]
      exact assocGet_assocSet_self _ _ _

/-- C7 concrete state for the witness. -/
def c7Wd : VMDict := [(.str "_binds", .bindMap [(.str "v", .SET)])]

/-- C7 witness: with `v` already bound to `set`, re-binding `v` to `add` is a
no-op and `v` still resolves to `set`; binding the fresh alias `w` to `add`
registers it. -/
theorem c7_witness :
    (vmBind (.str "v") (.cmd .ADD) c7Wd = .ok c7Wd ∧
      getBinding (.str "v") c7Wd = some .SET) ∧
    (vmBind (.str "w") (.cmd .ADD) c7Wd =
        .ok (writeAttr "_binds" (.bindMap (assocSet (.str "w") .ADD
              [(.str "v", .SET)])) c7Wd) ∧
      getBinding (.str "w") (writeAttr "_binds" (.bindMap (assocSet (.str "w") .ADD
              [(.str "v", .SET)])) c7Wd) = some .ADD) :=
  ⟨(c7_first_bind_wins c7Wd [(.str "v", .SET)] (.str "v") (.cmd .ADD) .SET rfl).1 rfl,
   (c7_first_bind_wins c7Wd [(.str "v", .SET)] (.str "w") (.cmd .ADD) .SET rfl).2 .ADD rfl rfl⟩

/-- C8: on a VM whose interactive flag is false, `input(command)` returns
`None` and leaves the whole VM state (the entire `__dict__`: pending queue,
stack, arrays, casts, binds, position) exactly as it was. -/
theorem c8_noninteractive_input_noop :
    ∀ (d : VMDict) (command : String), vmIsInteractive d = false →
      vmInput command d = .ok (Option.none, d) := by
  intro d command h
  unfold vmInput
  simp [h]

/-- C8 concrete state for the witness. -/
def c8Wd : VMDict :=
  [(.str "_stack", .vlist []), (.str "_casts", .castMap []),
   (.str "_binds", .bindMap []), (.str "is_interactive", .pyBool false)]

/-- C8 witness: the theorem applied to a freshly initialized
non-interactive VM and the command `add`. -/
theorem c8_witness : vmInput "add" c8Wd = .ok (Option.none, c8Wd) :=
  c8_noninteractive_input_noop c8Wd "add" rfl

/-- C9 counterexample: the claim says a program with blank lines between
instruction lines parses (at VM construction) to the same instruction
sequence as the blank-free text.  It does not: the blank line's newline is
glued onto the next token (`"\nadd"`, a plain string) instead of `add`
being a keyword, so the two constructions parse differently. -/
theorem c9_counterexample_blank_lines_change_parse :
    (vmInit (some "set constant 5\n\nadd\n") (0, 0) false).map getParsed =
      .ok (some [⟨.SET, [.kw .CONSTANT, .int 5, .str "\nadd"]⟩]) ∧
    (vmInit (some "set constant 5\nadd\n") (0, 0) false).map getParsed =
      .ok (some [⟨.SET, [.kw .CONSTANT, .int 5, .kw .ADD]⟩]) ∧
    ([(⟨.SET, [.kw .CONSTANT, .int 5, .str "\nadd"]⟩ : Instruction)] ≠
      [⟨.SET, [.kw .CONSTANT, .int 5, .kw .ADD]⟩]) :=
  ⟨rfl, rfl, by decide⟩

/-- C9 (amended): blank lines are dropped from the VM's raw instruction-line
queue `_instructions` at load (so both texts leave the same queue), but the
construction-time parse of the raw source does NOT ignore blank lines: it
can differ from the parse of the blank-free text, and a program beginning
with a blank line even fails construction with a parse error. -/
theorem c9_blank_lines_filtered_from_queue_not_parse :
    (vmInit (some "set constant 5\n\nadd\n") (0, 0) false).map getInstrQueue =
      .ok (some ["set constant 5", "add"]) ∧
    (vmInit (some "set constant 5\nadd\n") (0, 0) false).map getInstrQueue =
      .ok (some ["set constant 5", "add"]) ∧
    vmInit (some "\nadd\n") (0, 0) false =
      .error (.parseFail (.invalidExpression "\nadd")) :=
  ⟨rfl, rfl, rfl⟩

/-- C10 concrete state for the demonstration: a VM whose stack holds `5`. -/
def c10Wd : VMDict :=
  [(.str "_stack", .vlist [.int 5]), (.str "_casts", .castMap []),
   (.str "_binds", .bindMap [])]

/-- C10: named arrays live in the VM object's own attribute dictionary —
`_alloc` writes `self.__dict__[name]`, so for ANY name (including internal
attributes like `_stack` or `_casts`) `alloc(name, size)` replaces that very
entry with a fresh list of `size` empty slots.  Concretely, allocating
`_stack` of size 2 on a VM whose stack holds `5` discards the operand stack
(it becomes `[None, None]`), and allocating `_casts` destroys the cast
table. -/
theorem c10_alloc_writes_instance_dict :
    (∀ (d : VMDict) (s : String) (k : Int),
      vmAlloc (.str s) (.int k) d =
        .ok (assocSet (.str s) (.vlist (List.replicate k.toNat Value.none)) d)) ∧
    getVmStack c10Wd = some [.int 5] ∧
    (vmAlloc (.str "_stack") (.int 2) c10Wd).map getVmStack =
      .ok (some [Value.none, Value.none]) ∧
    (vmAlloc (.str "_casts") (.int 1) c10Wd).map getCastsView = .ok Option.none :=
  ⟨fun _ _ _ => rfl, rfl, rfl, rfl⟩

end Fira
